import Mathlib

/-!
# Verification of gemmlowp's SSE4 output pipeline (`internal/output_sse.h`)

This file gives a shallow embedding of the SSE4.2 output-stage specializations
of gemmlowp's output pipeline, as found in `internal/output_sse.h`, and proves
(or refutes) the specification claims about them.

Modelling conventions:
* A 32-bit lane is an `Int` whose value is kept in the two's-complement range
  by explicit wrapping (`i32`), mirroring machine `int32` arithmetic.
* `SSE4FragmentInt32x4x1` (C type `__m128i`) is `Fin 4 → Int`: four int32
  lanes; lane `l` of a column-major 4x1 fragment at coordinate `(row, col)`
  holds the element at logical position `(row + l, col)`.
* `SSE4FragmentInt32x16x1` (C type `__m128i[4]`) is `Fin 4 → Fin 4 → Int`:
  four registers of four lanes, in physical order; the element at physical
  position `j` (0 ≤ j < 16) is register `j / 4`, lane `j % 4`.
* The byte-valued output fragments are modelled as their byte sequences.
* Vector helpers (`Dup`, lane-wise add/multiply, arithmetic shift) and the
  fixed-point primitives come from the excluded headers `fixedpoint.h` /
  `<smmintrin.h>`; they are modelled from the spec and from the documented
  SSE instruction semantics, as noted on each definition.
-/

namespace Gemmlowp

/-- Wrap an integer into the two's-complement `int32` range
`[-2147483648, 2147483648)`, the semantics of machine int32 arithmetic. -/
def i32 (x : Int) : Int := (x + 2147483648) % 4294967296 - 2147483648

/-- Arithmetic shift right of an `int32` value by `n` bits: floor division by
`2 ^ n` (sign-filling), the semantics of the SSE `psrad` family for shift
counts; for an in-range `int32` value a count of 31 or more yields the sign. -/
def asr (x : Int) (n : Nat) : Int := x / 2 ^ n

/-- A four-lane int32 SSE register, `__m128i` viewed as 4 x int32
(`SSE4FragmentInt32x4x1 = Fragment<__m128i, 4, 1, MapOrder::ColMajor>`). -/
def SSE4FragmentInt32x4x1 : Type := Fin 4 → Int

/-- Four four-lane int32 SSE registers in physical order
(`SSE4FragmentInt32x16x1 = Fragment<__m128i[4], 16, 1, MapOrder::ColMajor>`). -/
def SSE4FragmentInt32x16x1 : Type := Fin 4 → SSE4FragmentInt32x4x1

/-- The four output bytes of the 4-wide saturating cast
(`SSE4FragmentUint8x4x1`, held in a `uint32_t` in the source). -/
def SSE4FragmentUint8x4x1 : Type := Fin 4 → Int

/-- The sixteen output bytes of the 16-wide saturating cast
(`SSE4FragmentUint8x16x1`). -/
def SSE4FragmentUint8x16x1 : Type := Fin 16 → Int

/-- Modelled from the spec: `Dup` from the excluded vector library broadcasts
one scalar into all four lanes of a register. -/
def Dup (x : Int) : SSE4FragmentInt32x4x1 := fun _ => x

/-- Modelled from the spec: lane-wise int32 addition of two registers
(`Add(__m128i, __m128i)` from the excluded vector library; `paddd`). -/
def vAdd (a b : SSE4FragmentInt32x4x1) : SSE4FragmentInt32x4x1 :=
  fun i => i32 (a i + b i)

/-- Modelled from the spec: the `Add(vector, scalar)` overload used by the
source adds the scalar to every lane (int32 wrapping). -/
def vAddS (a : SSE4FragmentInt32x4x1) (s : Int) : SSE4FragmentInt32x4x1 :=
  fun i => i32 (a i + s)

/-- Modelled from the spec: the `Mul(vector, scalar)` overload used by the
source multiplies every lane by the scalar (int32 wrapping, `pmulld`). -/
def vMulS (a : SSE4FragmentInt32x4x1) (s : Int) : SSE4FragmentInt32x4x1 :=
  fun i => i32 (a i * s)

/-- Modelled from the spec: lane-wise int32 multiplication of two registers. -/
def vMulV (a b : SSE4FragmentInt32x4x1) : SSE4FragmentInt32x4x1 :=
  fun i => i32 (a i * b i)

/-- Modelled from the spec: `ShiftRight` from the excluded fixed-point library
is the lane-wise arithmetic shift right. The spec specifies only that a shift
amount of zero or less disables rounding; a nonpositive amount is modelled as
a shift by zero bits (`Int.toNat` clamps it), leaving the lanes unchanged. -/
def vShiftRight (a : SSE4FragmentInt32x4x1) (s : Int) : SSE4FragmentInt32x4x1 :=
  fun i => asr (a i) s.toNat

/-- Parameters of `OutputStageQuantizeDownInt32ToUint8Scale` (declared in the
excluded `output.h`; field set as used by the source and listed by the spec). -/
structure OutputStageQuantizeDownInt32ToUint8Scale where
  result_offset : Int
  result_mult_int : Int
  result_shift : Int

/-- The rounding term `(result_shift < 1) ? 0 : (1 << (result_shift - 1))`
computed by every rescale stage in the source (int32 wrapping of the shift). -/
def kRoundingTerm (result_shift : Int) : Int :=
  if result_shift < 1 then 0 else i32 (2 ^ (result_shift - 1).toNat)

/-- Source `OutputStageEvalImpl<OutputStageQuantizeDownInt32ToUint8Scale,
SSE4FragmentInt32x4x1>::Eval` from `output_sse.h`:
`ShiftRight(Add(Mul(Add(input, Dup(result_offset)), result_mult_int),
kRoundingTerm), result_shift)`. The row/col arguments are ignored. -/
def evalQuantizeDownInt32ToUint8Scale (s : OutputStageQuantizeDownInt32ToUint8Scale)
    (input : SSE4FragmentInt32x4x1) (_row _col : Int) : SSE4FragmentInt32x4x1 :=
  vShiftRight
    (vAddS (vMulS (vAdd input (Dup s.result_offset)) s.result_mult_int)
      (kRoundingTerm s.result_shift))
    s.result_shift

/-- Modelled from the spec: the `value(int index) -> scalar` accessor of a
per-channel parameter holder is an indexable vector; `_mm_lddqu_si128` at the
address of entry `idx` loads the four consecutive entries
`idx, idx+1, idx+2, idx+3` into the four lanes. -/
def lddquLoad (v : Int → Int) (idx : Int) : SSE4FragmentInt32x4x1 :=
  fun l => v (idx + (l.val : Int))

/-- Parameters of `OutputStageQuantizeDownInt32ToUint8ScalePC` (declared in
the excluded `output.h`): per-channel multiplier and offset vectors, modelled
as indexable accessors, plus a shift. The `VectorShape` template argument of
the C++ type selects which of the two `Eval` specializations below applies. -/
structure OutputStageQuantizeDownInt32ToUint8ScalePC where
  result_mult_int : Int → Int
  result_offset : Int → Int
  result_shift : Int

/-- Source `OutputStageEvalImpl<OutputStageQuantizeDownInt32ToUint8ScalePC<
VectorShape::Col>, SSE4FragmentInt32x4x1>::Eval` from `output_sse.h`: the
multiplier and offset registers are `lddqu` loads starting at entry `row`;
the loaded offset register is added lane-wise (the source spells the addition
`Add(input, Dup(result_offset))` on the already-loaded register) and the
loaded multiplier register multiplies lane-wise. -/
def evalQuantizeDownInt32ToUint8ScalePCCol
    (s : OutputStageQuantizeDownInt32ToUint8ScalePC)
    (input : SSE4FragmentInt32x4x1) (row _col : Int) : SSE4FragmentInt32x4x1 :=
  let result_mult_int := lddquLoad s.result_mult_int row
  let result_offset := lddquLoad s.result_offset row
  vShiftRight
    (vAddS (vMulV (vAdd input result_offset) result_mult_int)
      (kRoundingTerm s.result_shift))
    s.result_shift

/-- Source `OutputStageEvalImpl<OutputStageQuantizeDownInt32ToUint8ScalePC<
VectorShape::Row>, SSE4FragmentInt32x4x1>::Eval` from `output_sse.h`: same as
the `Col` specialization, but the `lddqu` loads start at entry `col`. -/
def evalQuantizeDownInt32ToUint8ScalePCRow
    (s : OutputStageQuantizeDownInt32ToUint8ScalePC)
    (input : SSE4FragmentInt32x4x1) (_row col : Int) : SSE4FragmentInt32x4x1 :=
  let result_mult_int := lddquLoad s.result_mult_int col
  let result_offset := lddquLoad s.result_offset col
  vShiftRight
    (vAddS (vMulV (vAdd input result_offset) result_mult_int)
      (kRoundingTerm s.result_shift))
    s.result_shift

/-- Modelled from the spec: `SaturatingRoundingDoublingHighMul` on one int32
lane, from the excluded fixed-point library (`fixedpoint.h`): multiplies two
Q-format fixed-point numbers, rounds to nearest, and saturates on the ±1
boundary (only `INT32_MIN * INT32_MIN` overflows, yielding `INT32_MAX`);
the division truncates toward zero as in C. -/
def srdhm32 (a b : Int) : Int :=
  if a = -2147483648 ∧ b = -2147483648 then 2147483647
  else
    let ab := a * b
    let nudge : Int := if 0 ≤ ab then 1073741824 else -1073741823
    Int.tdiv (ab + nudge) 2147483648

/-- Modelled from the spec: the vector overload of
`SaturatingRoundingDoublingHighMul` applies the scalar operation on each of
the four lanes against the broadcast multiplier. -/
def SaturatingRoundingDoublingHighMul (a : SSE4FragmentInt32x4x1) (b : Int) :
    SSE4FragmentInt32x4x1 :=
  fun i => srdhm32 (a i) b

/-- Parameters of `OutputStageQuantizeDownInt32ToUint8ScaleByFixedPoint`
(declared in the excluded `output.h`; fields as used by the source). -/
structure OutputStageQuantizeDownInt32ToUint8ScaleByFixedPoint where
  result_fixedpoint_multiplier : Int
  result_shift : Int
  result_offset_after_shift : Int

/-- Source `OutputStageEvalImpl<OutputStageQuantizeDownInt32ToUint8ScaleByFixedPoint,
SSE4FragmentInt32x4x1>::Eval` from `output_sse.h`:
`mulhigh_val = SaturatingRoundingDoublingHighMul(input, multiplier)`, then
`shifted_val = ShiftRight(Add(mulhigh_val, Dup(kRoundingTerm)), result_shift)`
(the source writes the misspelling `ShifRight` for the library's `ShiftRight`),
then `Add(shifted_val, Dup(result_offset_after_shift))`. -/
def evalQuantizeDownInt32ToUint8ScaleByFixedPoint
    (s : OutputStageQuantizeDownInt32ToUint8ScaleByFixedPoint)
    (input : SSE4FragmentInt32x4x1) (_row _col : Int) : SSE4FragmentInt32x4x1 :=
  let mulhigh_val :=
    SaturatingRoundingDoublingHighMul input s.result_fixedpoint_multiplier
  let shifted_val :=
    vShiftRight (vAdd mulhigh_val (Dup (kRoundingTerm s.result_shift)))
      s.result_shift
  vAdd shifted_val (Dup s.result_offset_after_shift)

theorem i32_of_range {x : Int} (h1 : -2147483648 ≤ x) (h2 : x ≤ 2147483647) :
    i32 x = x := by
  unfold i32; omega

theorem kRoundingTerm_nonpos {s : Int} (h : s ≤ 0) : kRoundingTerm s = 0 := by
  unfold kRoundingTerm
  rw [if_pos (by omega)]

theorem kRoundingTerm_pos {s : Int} (h : 0 < s) (h31 : s ≤ 31) :
    kRoundingTerm s = 2 ^ (s - 1).toNat := by
  unfold kRoundingTerm
  rw [if_neg (by omega)]
  have hle : (s - 1).toNat ≤ 30 := by omega
  have hpow : (2:Int) ^ (s - 1).toNat ≤ 2 ^ 30 := by
    exact pow_le_pow_right₀ (by norm_num) hle
  have hpos : (0:Int) ≤ 2 ^ (s - 1).toNat := by positivity
  exact i32_of_range (by omega) (by norm_num at hpow ⊢; omega)

/-- Claim C3: UniformRescale rounding correctness for the 4-wide SSE path: on
any lane, when no intermediate int32 overflow occurs, a nonpositive shift
yields `(in + offset) * multiplier` exactly (no rounding term), and a shift
`k > 0` yields `((in + offset) * multiplier + 2^(k-1))` arithmetically
shifted right by `k`. -/
theorem uniformRescale_rounding (s : OutputStageQuantizeDownInt32ToUint8Scale)
    (input : SSE4FragmentInt32x4x1) (row col : Int) (i : Fin 4)
    (h1 : -2147483648 ≤ input i + s.result_offset)
    (h2 : input i + s.result_offset ≤ 2147483647)
    (h3 : -2147483648 ≤ (input i + s.result_offset) * s.result_mult_int)
    (h4 : (input i + s.result_offset) * s.result_mult_int
            + kRoundingTerm s.result_shift ≤ 2147483647)
    (h31 : s.result_shift ≤ 31) :
    (s.result_shift ≤ 0 →
      evalQuantizeDownInt32ToUint8Scale s input row col i =
        (input i + s.result_offset) * s.result_mult_int) ∧
    (∀ k : Nat, s.result_shift = (k : Int) → 0 < k →
      evalQuantizeDownInt32ToUint8Scale s input row col i =
        ((input i + s.result_offset) * s.result_mult_int + 2 ^ (k - 1)) / 2 ^ k) := by
  have hsum : i32 (input i + s.result_offset) = input i + s.result_offset :=
    i32_of_range h1 h2
  have hrt0 : 0 ≤ kRoundingTerm s.result_shift := by
    rcases le_or_lt s.result_shift 0 with hs | hs
    · rw [kRoundingTerm_nonpos hs]
    · rw [kRoundingTerm_pos hs h31]; positivity
  have hprod : i32 ((input i + s.result_offset) * s.result_mult_int) =
      (input i + s.result_offset) * s.result_mult_int :=
    i32_of_range h3 (by omega)
  constructor
  · intro hs
    unfold evalQuantizeDownInt32ToUint8Scale vShiftRight vAddS vMulS vAdd Dup
    rw [hsum, hprod, kRoundingTerm_nonpos hs]
    have htn : s.result_shift.toNat = 0 := by omega
    rw [htn]
    simp [asr, i32_of_range h3 (by omega)]
  · intro k hk hkpos
    unfold evalQuantizeDownInt32ToUint8Scale vShiftRight vAddS vMulS vAdd Dup
    rw [hsum, hprod]
    have hrt : kRoundingTerm s.result_shift = 2 ^ (s.result_shift - 1).toNat :=
      kRoundingTerm_pos (by omega) h31
    have hsub : (s.result_shift - 1).toNat = k - 1 := by omega
    have htn : s.result_shift.toNat = k := by omega
    rw [hrt] at h4 ⊢
    rw [hsub, htn,
      i32_of_range (by have := hrt0; rw [hrt, hsub] at this; omega)
        (by rw [hsub] at h4; omega)]
    rfl

/-- Witness for C3 at the spec's end-to-end scenario values:
input 1000, offset 0, multiplier 3, shift 4 gives `(3000 + 8) >> 4 = 188`. -/
theorem uniformRescale_rounding_witness :
    evalQuantizeDownInt32ToUint8Scale ⟨0, 3, 4⟩ (Dup 1000) 0 0 0 = 188 :=
  ((uniformRescale_rounding ⟨0, 3, 4⟩ (Dup 1000) 0 0 0 (by decide) (by decide)
      (by decide) (by decide) (by decide)).2 4 (by decide) (by decide)).trans
    (by decide)

/-- Claim C5 (refuted by the code): evaluating the `VectorShape::Row`
specialization (the spec's column variant) at `col = 0` with the multiplier
vector equal to the index function, zero offsets and zero shift: lane 1 gets
multiplier value `1 = mult[col + 1]` while lane 0 gets `0 = mult[col]`, so the
lanes do not all use the single multiplier value at index `col` as the claim
requires — the code gathers `col, col+1, col+2, col+3` instead of
broadcasting the value at `col`. -/
theorem perChannelRescale_row_shape_gathers :
    evalQuantizeDownInt32ToUint8ScalePCRow ⟨fun idx => idx, fun _ => 0, 0⟩
        (Dup 1) 0 0 1 = 1 ∧
    evalQuantizeDownInt32ToUint8ScalePCRow ⟨fun idx => idx, fun _ => 0, 0⟩
        (Dup 1) 0 0 0 = 0 := by
  constructor <;> decide

/-- Claim C6: FixedPointRescale for the 4-wide SSE path: on any lane, when no
intermediate int32 overflow occurs and the shift is a valid int32 shift
amount, the output is `saturatingRoundingDoublingHighMultiply(in, multiplier)`
plus the rounding term (`0` when `shift < 1`, else `2^(shift-1)`),
arithmetically shifted right by `shift`, plus `offsetAfterShift`. -/
theorem fixedPointRescale_formula
    (s : OutputStageQuantizeDownInt32ToUint8ScaleByFixedPoint)
    (input : SSE4FragmentInt32x4x1) (row col : Int) (i : Fin 4)
    (h31 : s.result_shift ≤ 31)
    (hm1 : -2147483648 ≤ srdhm32 (input i) s.result_fixedpoint_multiplier)
    (hm2 : srdhm32 (input i) s.result_fixedpoint_multiplier
            + (if s.result_shift < 1 then 0 else 2 ^ (s.result_shift - 1).toNat)
          ≤ 2147483647)
    (hf1 : -2147483648 ≤
        asr (srdhm32 (input i) s.result_fixedpoint_multiplier
              + (if s.result_shift < 1 then 0
                 else 2 ^ (s.result_shift - 1).toNat))
            s.result_shift.toNat
          + s.result_offset_after_shift)
    (hf2 : asr (srdhm32 (input i) s.result_fixedpoint_multiplier
              + (if s.result_shift < 1 then 0
                 else 2 ^ (s.result_shift - 1).toNat))
            s.result_shift.toNat
          + s.result_offset_after_shift ≤ 2147483647) :
    evalQuantizeDownInt32ToUint8ScaleByFixedPoint s input row col i =
      asr (srdhm32 (input i) s.result_fixedpoint_multiplier
            + (if s.result_shift < 1 then 0
               else 2 ^ (s.result_shift - 1).toNat))
          s.result_shift.toNat
        + s.result_offset_after_shift := by
  have hkr : kRoundingTerm s.result_shift =
      (if s.result_shift < 1 then 0
       else (2:Int) ^ (s.result_shift - 1).toNat) := by
    rcases lt_or_le s.result_shift 1 with hs | hs
    · rw [kRoundingTerm_nonpos (by omega), if_pos hs]
    · rw [kRoundingTerm_pos (by omega) h31, if_neg (by omega)]
  have hrt0 : (0:Int) ≤
      (if s.result_shift < 1 then 0
       else (2:Int) ^ (s.result_shift - 1).toNat) := by
    split
    · exact le_refl 0
    · positivity
  show i32 (asr (i32 (srdhm32 (input i) s.result_fixedpoint_multiplier
        + kRoundingTerm s.result_shift)) s.result_shift.toNat
      + s.result_offset_after_shift) = _
  rw [hkr, i32_of_range (by omega) hm2, i32_of_range hf1 hf2]

/-- Witness for C6: multiplier `2^30` (one half in doubling Q-format), input
1000, shift 2, post-shift offset 7: `srdhm32 1000 2^30 = 500`, rounding term
2, `(500 + 2) >> 2 = 125`, plus 7 gives 132. -/
theorem fixedPointRescale_formula_witness :
    evalQuantizeDownInt32ToUint8ScaleByFixedPoint ⟨1073741824, 2, 7⟩
      (Dup 1000) 0 0 0 = 132 :=
  (fixedPointRescale_formula ⟨1073741824, 2, 7⟩ (Dup 1000) 0 0 0 (by decide)
    (by decide) (by decide) (by decide) (by decide)).trans (by decide)

/-- Modelled from the documented SSE semantics: unsigned saturation of a
signed value to the 16-bit range `[0, 65535]` (used by `packusdw`). -/
def satU16 (x : Int) : Int := max 0 (min x 65535)

/-- Modelled from the documented SSE semantics: unsigned saturation of a
signed value to the 8-bit range `[0, 255]` (used by `packuswb`). -/
def satU8 (x : Int) : Int := max 0 (min x 255)

/-- Reinterpret a 16-bit lane's bit pattern (a value in `[0, 65536)`) as a
signed 16-bit integer, which is how `packuswb` reads its input lanes. -/
def asInt16 (x : Int) : Int := (x + 32768) % 65536 - 32768

/-- Modelled from the documented SSE semantics: `_mm_packus_epi32`
(`packusdw`) converts the four signed 32-bit lanes of each argument to eight
unsigned 16-bit lanes using unsigned saturation, `a`'s lanes first. -/
def packus_epi32 (a b : SSE4FragmentInt32x4x1) : Fin 8 → Int :=
  fun j =>
    if h : j.val < 4 then satU16 (a ⟨j.val, h⟩)
    else satU16 (b ⟨j.val - 4, by omega⟩)

/-- Modelled from the documented SSE semantics: `_mm_packus_epi16`
(`packuswb`) converts the eight signed 16-bit lanes of each argument to
sixteen 8-bit lanes using unsigned saturation, `a`'s lanes first. -/
def packus_epi16 (a b : Fin 8 → Int) : Fin 16 → Int :=
  fun j =>
    if h : j.val < 8 then satU8 (asInt16 (a ⟨j.val, h⟩))
    else satU8 (asInt16 (b ⟨j.val - 8, by omega⟩))

/-- Source `OutputStageEvalImpl<OutputStageSaturatingCastToUint8,
SSE4FragmentInt32x4x1>::Eval` from `output_sse.h`:
`res_16 = _mm_packus_epi32(input, zero)`,
`res_8 = _mm_packus_epi16(res_16, zero)`, and `_mm_cvtsi128_si32(res_8)`
returns the low four bytes. -/
def evalSaturatingCastToUint8x4 (input : SSE4FragmentInt32x4x1)
    (_row _col : Int) : SSE4FragmentUint8x4x1 :=
  let res_16 := packus_epi32 input (Dup 0)
  let res_8 := packus_epi16 res_16 (fun _ => 0)
  fun l => res_8 ⟨l.val, by omega⟩

/-- Source `OutputStageEvalImpl<OutputStageSaturatingCastToUint8,
SSE4FragmentInt32x16x1>::Eval` from `output_sse.h`:
`q16[i] = _mm_packus_epi32(input.data.val[2*i], input.data.val[2*i+1])` for
`i = 0, 1`, then `_mm_packus_epi16(q16[0], q16[1])`. -/
def evalSaturatingCastToUint8x16 (input : SSE4FragmentInt32x16x1)
    (_row _col : Int) : SSE4FragmentUint8x16x1 :=
  let q16 : Fin 2 → Fin 8 → Int := fun i =>
    packus_epi32 (input ⟨2 * i.val, by omega⟩) (input ⟨2 * i.val + 1, by omega⟩)
  packus_epi16 (q16 0) (q16 1)

/-- Claim C2: the hand-specialized 16-wide SaturatingCastToUint8 evaluator
produces, at every byte position, the same byte as the 4-wide evaluator
applied to the corresponding 4-lane sub-group (sub-group `j / 4`, lane
`j % 4`, at the decomposed row coordinate), for every input fragment. -/
theorem saturatingCast16_matches_4wide (input : SSE4FragmentInt32x16x1)
    (row col : Int) (j : Fin 16) :
    evalSaturatingCastToUint8x16 input row col j =
      evalSaturatingCastToUint8x4 (input ⟨j.val / 4, by omega⟩)
        (row + 4 * ((j.val / 4 : Nat) : Int)) col ⟨j.val % 4, by omega⟩ := by
  fin_cases j <;> rfl

/-- Claim C4 (refuted by the code): both saturating-cast paths use
`_mm_packus_epi32` (unsigned 16-bit saturation) instead of a signed
saturating narrow, so the input 32768 survives the first pack as the 16-bit
pattern 0x8000, is read as the negative signed value -32768 by
`_mm_packus_epi16`, and comes out as 0 where the claim requires 255. Inputs
in `[0, 255]` and nonpositive inputs behave as claimed, and the two paths
agree with each other. -/
theorem saturatingCast_drops_large_inputs :
    evalSaturatingCastToUint8x4 (Dup 32768) 0 0 0 = 0 ∧
    evalSaturatingCastToUint8x16 (fun _ => Dup 32768) 0 0 0 = 0 ∧
    evalSaturatingCastToUint8x4 (Dup 255) 0 0 0 = 255 ∧
    evalSaturatingCastToUint8x4 (Dup (-7)) 0 0 0 = 0 := by
  refine ⟨by decide, by decide, by decide, by decide⟩

/-- The `VectorShape` enumeration from the excluded `output.h`: the shape tag
of a per-channel parameter vector (a `Col`-shaped vector has one entry per
row, a `Row`-shaped vector one entry per column). -/
inductive VectorShape where
  | Col
  | Row

/-- Parameters of `OutputStageBiasAddition` (declared in the excluded
`output.h`): a bias vector, modelled as an indexable accessor; the shape of
the vector is the `VectorType` template argument, passed separately below. -/
structure OutputStageBiasAddition where
  bias_vector : Int → Int

/-- Source `OutputStageEvalImpl<OutputStageBiasAddition<VectorType>,
SSE4FragmentInt32x4x1>::Eval` from `output_sse.h`: for a `Row`-shaped vector
the bias register is `Dup(bias_vector(col))`; for a `Col`-shaped vector it is
`_mm_lddqu_si128(bias_vector.data(row))`; the register is then added
lane-wise to the input. -/
def evalBiasAddition (shape : VectorShape) (s : OutputStageBiasAddition)
    (input : SSE4FragmentInt32x4x1) (row col : Int) : SSE4FragmentInt32x4x1 :=
  let bias : SSE4FragmentInt32x4x1 :=
    match shape with
    | VectorShape.Row => Dup (s.bias_vector col)
    | VectorShape.Col => lddquLoad s.bias_vector row
  vAdd input bias

/-- Claim C7: BiasAdd addressing for the 4-wide SSE path: on every lane, a
`Row`-shaped bias adds the single value at index `col` (the same value for
every lane, i.e. broadcast across the four rows), and a `Col`-shaped bias
adds the value at index `row + lane` (a gather of four consecutive values
starting at the current row offset), with int32 wrapping. -/
theorem biasAddition_addressing (s : OutputStageBiasAddition)
    (input : SSE4FragmentInt32x4x1) (row col : Int) (i : Fin 4) :
    evalBiasAddition VectorShape.Row s input row col i =
      i32 (input i + s.bias_vector col) ∧
    evalBiasAddition VectorShape.Col s input row col i =
      i32 (input i + s.bias_vector (row + (i.val : Int))) := by
  exact ⟨rfl, rfl⟩

/-- The concrete column-shaped bias vector `[5, 10, 15, 20]` of claim C8,
stored at indices 0 to 3. -/
def biasVectorC8 : Int → Int := fun idx =>
  if idx = 0 then 5 else if idx = 1 then 10 else if idx = 2 then 15 else 20

/-- Counterexample to claim C8: with the column-shaped bias vector
`[5, 10, 15, 20]` at `row = 0`, `col = 0`, the code does not add 5 to every
element of the input fragment (all lanes 100): lane 1 becomes 110, not 105. -/
theorem biasAddition_col_not_plus_five :
    ¬ (∀ i : Fin 4,
        evalBiasAddition VectorShape.Col ⟨biasVectorC8⟩ (Dup 100) 0 0 i = 105) := by
  decide

/-- Claim C8 as amended: BiasAdd with the column-shaped bias vector
`[5, 10, 15, 20]` at `row = 0`, `col = 0` adds 5, 10, 15, 20 respectively to
the four elements (a lane-for-lane gather starting at the row offset);
broadcasting a single value happens for row-shaped bias vectors instead. -/
theorem biasAddition_col_adds_gathered (input : SSE4FragmentInt32x4x1)
    (i : Fin 4) :
    evalBiasAddition VectorShape.Col ⟨biasVectorC8⟩ input 0 0 i =
      i32 (input i + biasVectorC8 (i.val : Int)) := by
  fin_cases i <;> rfl

/-- Modelled from the documented SSE semantics: `_mm_min_epi32` (`pminsd`),
the lane-wise signed 32-bit minimum. -/
def mm_min_epi32 (a b : SSE4FragmentInt32x4x1) : SSE4FragmentInt32x4x1 :=
  fun i => min (a i) (b i)

/-- Modelled from the documented SSE semantics: `_mm_max_epi32` (`pmaxsd`),
the lane-wise signed 32-bit maximum. -/
def mm_max_epi32 (a b : SSE4FragmentInt32x4x1) : SSE4FragmentInt32x4x1 :=
  fun i => max (a i) (b i)

/-- Parameters of `OutputStageClamp` (declared in the excluded `output.h`):
the clamp bounds. -/
structure OutputStageClamp where
  min : Int
  max : Int

/-- Source `OutputStageEvalImpl<OutputStageClamp,
SSE4FragmentInt32x4x1>::Eval` from `output_sse.h`:
`_mm_min_epi32(_mm_max_epi32(input, Dup(min)), Dup(max))`. -/
def evalClamp (s : OutputStageClamp) (input : SSE4FragmentInt32x4x1)
    (_row _col : Int) : SSE4FragmentInt32x4x1 :=
  mm_min_epi32 (mm_max_epi32 input (Dup s.min)) (Dup s.max)

/-- Claim C10: on every lane the Clamp stage computes the lower bound first
and the upper bound second, `min_op(max_op(element, min), max)`, with no
precondition relating the bounds; consequently, when the caller violates the
documented `min ≤ max` precondition, every output lane equals `max`
regardless of the input. -/
theorem clamp_lane_formula (s : OutputStageClamp)
    (input : SSE4FragmentInt32x4x1) (row col : Int) (i : Fin 4) :
    evalClamp s input row col i = min (max (input i) s.min) s.max ∧
    (s.max < s.min → evalClamp s input row col i = s.max) := by
  constructor
  · rfl
  · intro h
    show min (max (input i) s.min) s.max = s.max
    exact min_eq_right (le_trans (le_of_lt h) (le_max_right _ _))

/-- Witness for C10 at the spec's boundary scenario (`Clamp(10, 20)` maps
-5 to 10) and at crossed bounds (`min = 30 > max = 20` forces 20). -/
theorem clamp_lane_formula_witness :
    evalClamp ⟨10, 20⟩ (Dup (-5)) 0 0 0 = 10 ∧
    evalClamp ⟨30, 20⟩ (Dup 15) 0 0 0 = 20 := by
  constructor
  · exact (clamp_lane_formula ⟨10, 20⟩ (Dup (-5)) 0 0 0).1.trans (by decide)
  · exact (clamp_lane_formula ⟨30, 20⟩ (Dup 15) 0 0 0).2 (by decide)

/-- Source `OutputStageEvalImpl<OutputStageType, SSE4FragmentInt32x16x1>`
from `output_sse.h`, the generic wide-fragment decomposition: for any stage
with a 4-wide implementation `eval4`, register `i` of the output is
`eval4(input.data.val[i], row + 4 * i, col)`. -/
def eval16Generic
    (eval4 : SSE4FragmentInt32x4x1 → Int → Int → SSE4FragmentInt32x4x1)
    (input : SSE4FragmentInt32x16x1) (row col : Int) : SSE4FragmentInt32x16x1 :=
  fun i => eval4 (input i) (row + 4 * (i.val : Int)) col

/-- Modelled from the spec: the element-by-element scalar reference
implementation (excluded `output.h`) of the per-channel rescale stage in its
`VectorShape::Row` (column-indexed) variant: the element at logical
coordinates `(row, col)` uses the multiplier and offset at index `col`, then
the uniform rescale formula with int32 arithmetic and the shared rounding
term. -/
def scalarRefQuantizeDownPCRow (s : OutputStageQuantizeDownInt32ToUint8ScalePC)
    (x : Int) (_row col : Int) : Int :=
  asr
    (i32 (i32 (i32 (x + s.result_offset col) * s.result_mult_int col)
      + kRoundingTerm s.result_shift))
    s.result_shift.toNat

/-- The per-channel stage of claim C1's failing input: the multiplier vector
is the index function, offsets are zero, the shift is zero. -/
def pcStageC1 : OutputStageQuantizeDownInt32ToUint8ScalePC :=
  ⟨fun idx => idx, fun _ => 0, 0⟩

/-- Claim C1 (refuted by the code): evaluating an all-ones 16-wide fragment
at `(row, col) = (0, 0)` through the generic decomposition of the
`VectorShape::Row` per-channel rescale stage gives, at physical element 1
(register 0, lane 1, logical coordinates `(1, 0)`), the value 1 — the lane
was multiplied by `mult[col + 1] = 1` — while the element-by-element scalar
reference of that stage gives 0 there (every element uses
`mult[col] = 0`), so the decomposition default is not bit-identical to the
scalar reference for every stage kind with a 4-wide implementation. -/
theorem decomposition_not_bitIdentical_for_pcRow :
    eval16Generic (evalQuantizeDownInt32ToUint8ScalePCRow pcStageC1)
        (fun _ => Dup 1) 0 0 0 1 = 1 ∧
    scalarRefQuantizeDownPCRow pcStageC1 1 1 0 = 0 := by
  exact ⟨by decide, by decide⟩

/-- Modelled from the spec: the destination's addressing function
`dst->data(row, col)` of a column-major destination map with the given
column stride: the element address of entry `(row, col)`. -/
def dstDataAddr (stride row col : Int) : Int := row + col * stride

/-- Source `StoreFinalOutput(SSE4FragmentInt32x16x1 value, DstType* dst, int
row, int col)` from `output_sse.h`: the loop body executes four times, and
every iteration computes the destination address `dst->data(row, col)`; this
definition collects, in order, the address of each of the four 16-byte
stores performed. -/
def storeFinalOutputInt32x16Addrs (stride row col : Int) : List Int :=
  (List.range 4).map fun _ => dstDataAddr stride row col

/-- Claim C9 (refuted by the code): storing a 16-wide int32 fragment at
`(row, col) = (0, 0)` into a destination of column stride 100 performs its
four 16-byte stores all at the same address `dst->data(0, 0)` — the address
list is four copies of address 0 — instead of the four distinct,
successively-offset addresses the claim requires, so the destination region
cannot receive all 16 int32 values. -/
theorem storeInt32x16_single_address :
    storeFinalOutputInt32x16Addrs 100 0 0 = List.replicate 4 (dstDataAddr 100 0 0) ∧
    dstDataAddr 100 0 0 = 0 := by
  exact ⟨by decide, by decide⟩

end Gemmlowp
